import Mathlib

/-!
Verification of the seakcutils concurrency toolkit core against its
natural-language specification.

The C sources are shallowly embedded as Lean functions over explicit state
records:

* machine-word cursors and counters (`size_t`) are modelled as unbounded
  `Nat` counters: every cursor in the code is monotonically increasing and
  only reduced modulo the capacity when addressing a slot, so wrap-around
  at 2^64 is unreachable in any feasible execution;
* heap buffers are modelled as total functions `Nat → _` from cell index to
  cell contents; a cell's contents is the list of its bytes;
* `malloc`/`realloc` return uninitialized storage, so every `create`
  function takes the allocator's returned contents as an explicit
  parameter (`mem`), exactly as the code receives arbitrary bytes;
* a call that can abort (`abort()`) or spin forever returns `Option`:
  `none` means the call never returns normally;
* each channel operation is modelled big-step, atomic with respect to the
  other queue operations, except that the channel can be closed by another
  thread while a send/recv spins.  The parameter `closeAt : Option Nat`
  is the index of the first load of the channel-state field that observes
  `CLOSED` (`none`: nobody closes the channel during the call).  Loads are
  numbered from 0 in program order inside the call.
-/

namespace Seakcutils

/-- Pointwise update of a memory modelled as a function from indices. -/
def setAt (f : Nat → α) (i : Nat) (v : α) : Nat → α :=
  fun j => if j = i then v else f j

/-- `ChanState_t` from channels.h: `OPEN = 0 | CLOSED = 1`. -/
inductive ChanState where
  | OPEN
  | CLOSED
  deriving DecidableEq, Repr

/-- The channel status codes of channels.h
(`CHANNEL_OK`, `CHANNEL_ERR_NULL`, `CHANNEL_ERR_EMPTY`, `CHANNEL_ERR_FULL`,
`CHANNEL_ERR_CLOSED`). -/
inductive ChanStatus where
  | ok
  | errNull
  | errEmpty
  | errFull
  | errClosed
  deriving DecidableEq, Repr

/-- The ABI values of the status codes (channels.h lines 124-128). -/
def ChanStatus.code : ChanStatus → Int
  | .ok => 0
  | .errNull => -1
  | .errEmpty => -2
  | .errFull => -3
  | .errClosed => -4

/-- Value observed by the `n`-th load of the channel-state field during one
call, when the environment closes the channel just before load `closeAt`
(`none`: no concurrent close). -/
def chanObsState (init : ChanState) (closeAt : Option Nat) (n : Nat) : ChanState :=
  match init, closeAt with
  | .CLOSED, _ => .CLOSED
  | .OPEN, none => .OPEN
  | .OPEN, some k => if k ≤ n then .CLOSED else .OPEN

/-! ## SPSC channel (src/channels/spsc.c)

`ChannelSpsc_t` holds a flat byte buffer of `capacity` elements, the two
cursors and the state; there are no per-slot sequence numbers.  The buffer
is modelled per-element: `buffer i` is the byte list stored in element
cell `i` (meaningful for `i < capacity`). -/

structure ChannelSpsc where
  buffer : Nat → List Nat
  capacity : Nat
  elem_size : Nat
  head : Nat
  tail : Nat
  state : ChanState

/-- `channel_create_spsc` (spsc.c:43-65): allocates the element buffer with
`realloc` and leaves its bytes uninitialized; `mem` is the storage contents
the allocator returned. -/
def channel_create_spsc (capacity elem_size : Nat) (mem : Nat → List Nat) : ChannelSpsc :=
  { buffer := mem
    capacity := capacity
    elem_size := elem_size
    head := 0
    tail := 0
    state := .OPEN }

/-- `spsc_try_send` (spsc.c:134-159).  The `sender` argument is `none` for a
NULL handle.  `head - tail` is `size_t` subtraction; in every reachable
state `head ≥ tail`, where it agrees with truncated `Nat` subtraction. -/
def spsc_try_send (sender : Option Unit) (c : ChannelSpsc) (element : List Nat) :
    ChanStatus × ChannelSpsc :=
  match sender with
  | none => (.errNull, c)
  | some _ =>
    if c.state = .CLOSED then (.errClosed, c)
    else if c.head - c.tail = c.capacity then (.errFull, c)
    else
      let index := c.head % c.capacity
      (.ok, { c with
              buffer := setAt c.buffer index (element.take c.elem_size)
              head := c.head + 1 })

/-- `spsc_recv` (spsc.c:161-177).  Returns the status, the channel after the
call, and the bytes copied into `out` (`none`: `out` was not written). -/
def spsc_recv (receiver : Option Unit) (c : ChannelSpsc) :
    ChanStatus × ChannelSpsc × Option (List Nat) :=
  match receiver with
  | none => (.errNull, c, none)
  | some _ =>
    if c.tail = c.head then (.errEmpty, c, none)
    else
      let index := c.tail % c.capacity
      (.ok, { c with tail := c.tail + 1 }, some ((c.buffer index).take c.elem_size))

/-! ## Slot-based channels (src/channels/mpsc.c, spmc.c, mpmc.h)

`Slot_t` (channels.h): element storage plus an atomic sequence number. -/

structure Slot where
  seq : Nat
  data : List Nat
  deriving Repr

/-- `ChannelMpsc_t` (mpsc.c:33-43). -/
structure ChannelMpsc where
  buffer : Nat → Slot
  capacity : Nat
  elem_size : Nat
  head : Nat
  tail : Nat
  prod_cont : Nat
  state : ChanState

/-- `channel_create_mpsc` (mpsc.c:45-80): slot `i` gets sequence `i`; each
slot's element storage is `realloc`ed and left uninitialized — `mem i` is
the contents the allocator returned for slot `i`.  Only `i < capacity` is
meaningful. -/
def channel_create_mpsc (capacity elem_size : Nat) (mem : Nat → List Nat) : ChannelMpsc :=
  { buffer := fun i => { seq := i, data := mem i }
    capacity := capacity
    elem_size := elem_size
    head := 0
    tail := 0
    prod_cont := 0
    state := .OPEN }

/-- The channel after the call, accounting for a concurrent `mpsc_close`
that landed during the call (`closeAt = some _`). -/
def mpscApplyClose (closeAt : Option Nat) (c : ChannelMpsc) : ChannelMpsc :=
  match closeAt with
  | none => c
  | some _ => { c with state := .CLOSED }

/-- `mpsc_send` (mpsc.c:172-201).  Big-step: the entry state check is load 0;
the spin loop re-checks the state each iteration, so with `closeAt = some _`
the loop eventually returns `Closed`, and with no concurrent close and an
unavailable slot the call spins forever (`none`) because no consumer can
re-arm the slot within this atomic step. -/
def mpsc_send (sender : Option Unit) (closeAt : Option Nat) (c : ChannelMpsc)
    (element : List Nat) : Option (ChanStatus × ChannelMpsc) :=
  match sender with
  | none => some (.errNull, c)
  | some _ =>
    if chanObsState c.state closeAt 0 = .CLOSED then
      some (.errClosed, mpscApplyClose closeAt c)
    else
      -- atomic_fetch_add on the producer head claims position `head`
      let head := c.head
      let c1 : ChannelMpsc := { c with head := head + 1 }
      let idx := head % c1.capacity
      let slot := c1.buffer idx
      if slot.seq = head then
        let slotW : Slot := ⟨head + 1, element.take c1.elem_size⟩
        some (.ok, mpscApplyClose closeAt { c1 with buffer := setAt c1.buffer idx slotW })
      else
        match closeAt with
        | some _ => some (.errClosed, mpscApplyClose closeAt c1)
        | none => none

/-- `mpsc_recv` (mpsc.c:203-224): non-blocking; never loads the channel
state, so no `closeAt` parameter.  Returns status, post-state and the bytes
written to `out`. -/
def mpsc_recv (receiver : Option Unit) (c : ChannelMpsc) :
    ChanStatus × ChannelMpsc × Option (List Nat) :=
  match receiver with
  | none => (.errNull, c, none)
  | some _ =>
    if c.tail = c.head then (.errEmpty, c, none)
    else
      let idx := c.tail % c.capacity
      let slot := c.buffer idx
      if slot.seq ≠ c.tail + 1 then (.errEmpty, c, none)
      else
        (.ok,
         { c with
           buffer := setAt c.buffer idx { seq := c.tail + c.capacity, data := slot.data }
           tail := c.tail + 1 },
         some (slot.data.take c.elem_size))

/-- `ChannelSpmc_t` (spmc.c). -/
structure ChannelSpmc where
  buffer : Nat → Slot
  capacity : Nat
  elem_size : Nat
  head : Nat
  tail : Nat
  cons_cont : Nat
  state : ChanState

/-- `channel_create_spmc` (spmc.c:24-47): slot `i` gets sequence `i`, element
storage `malloc`ed and uninitialized (`mem i`). -/
def channel_create_spmc (capacity elem_size : Nat) (mem : Nat → List Nat) : ChannelSpmc :=
  { buffer := fun i => { seq := i, data := mem i }
    capacity := capacity
    elem_size := elem_size
    head := 0
    tail := 0
    cons_cont := 0
    state := .OPEN }

/-- See `mpscApplyClose`. -/
def spmcApplyClose (closeAt : Option Nat) (c : ChannelSpmc) : ChannelSpmc :=
  match closeAt with
  | none => c
  | some _ => { c with state := .CLOSED }

/-- `spmc_send` (spmc.c:148-177); same body as `mpsc_send`. -/
def spmc_send (sender : Option Unit) (closeAt : Option Nat) (c : ChannelSpmc)
    (element : List Nat) : Option (ChanStatus × ChannelSpmc) :=
  match sender with
  | none => some (.errNull, c)
  | some _ =>
    if chanObsState c.state closeAt 0 = .CLOSED then
      some (.errClosed, spmcApplyClose closeAt c)
    else
      let head := c.head
      let c1 : ChannelSpmc := { c with head := head + 1 }
      let idx := head % c1.capacity
      let slot := c1.buffer idx
      if slot.seq = head then
        let slotW : Slot := ⟨head + 1, element.take c1.elem_size⟩
        some (.ok, spmcApplyClose closeAt { c1 with buffer := setAt c1.buffer idx slotW })
      else
        match closeAt with
        | some _ => some (.errClosed, spmcApplyClose closeAt c1)
        | none => none

/-- `spmc_recv` (spmc.c:179-205): blocking consumer.  `receiverState` is the
handle's own `receiver_state` field, checked at entry; the loop loads the
channel state (loads numbered from 0) and exits `Closed` when the channel is
already closed or a concurrent close lands (`closeAt = some _`). -/
def spmc_recv (receiver : Option Unit) (receiverState : ChanState) (closeAt : Option Nat)
    (c : ChannelSpmc) : Option (ChanStatus × ChannelSpmc × Option (List Nat)) :=
  match receiver with
  | none => some (.errNull, c, none)
  | some _ =>
    if receiverState = .CLOSED then some (.errClosed, spmcApplyClose closeAt c, none)
    else
      -- atomic_fetch_add on the consumer tail claims position `tail`
      let tail := c.tail
      let c1 : ChannelSpmc := { c with tail := tail + 1 }
      let idx := tail % c1.capacity
      let slot := c1.buffer idx
      if slot.seq = tail + 1 then
        let slotW : Slot := ⟨tail + c1.capacity, slot.data⟩
        some (.ok, spmcApplyClose closeAt { c1 with buffer := setAt c1.buffer idx slotW },
          some (slot.data.take c1.elem_size))
      else if c.state = .CLOSED ∨ closeAt.isSome then
        some (.errClosed, spmcApplyClose closeAt c1, none)
      else none

/-- `ChannelMpmc_t` (mpmc.h:251-263). -/
structure ChannelMpmc where
  buffer : Nat → Slot
  capacity : Nat
  elem_size : Nat
  head : Nat
  tail : Nat
  cons_cont : Nat
  prod_cont : Nat
  state : ChanState

/-- `channel_create_mpmc` (mpmc.h:265-289): slot `i` gets sequence `i`,
element storage `malloc`ed and uninitialized (`mem i`). -/
def channel_create_mpmc (capacity elem_size : Nat) (mem : Nat → List Nat) : ChannelMpmc :=
  { buffer := fun i => { seq := i, data := mem i }
    capacity := capacity
    elem_size := elem_size
    head := 0
    tail := 0
    cons_cont := 0
    prod_cont := 0
    state := .OPEN }

/-- See `mpscApplyClose`. -/
def mpmcApplyClose (closeAt : Option Nat) (c : ChannelMpmc) : ChannelMpmc :=
  match closeAt with
  | none => c
  | some _ => { c with state := .CLOSED }

/-- `mpmc_send` (mpmc.h:392-421); same body as `mpsc_send`. -/
def mpmc_send (sender : Option Unit) (closeAt : Option Nat) (c : ChannelMpmc)
    (element : List Nat) : Option (ChanStatus × ChannelMpmc) :=
  match sender with
  | none => some (.errNull, c)
  | some _ =>
    if chanObsState c.state closeAt 0 = .CLOSED then
      some (.errClosed, mpmcApplyClose closeAt c)
    else
      let head := c.head
      let c1 : ChannelMpmc := { c with head := head + 1 }
      let idx := head % c1.capacity
      let slot := c1.buffer idx
      if slot.seq = head then
        let slotW : Slot := ⟨head + 1, element.take c1.elem_size⟩
        some (.ok, mpmcApplyClose closeAt { c1 with buffer := setAt c1.buffer idx slotW })
      else
        match closeAt with
        | some _ => some (.errClosed, mpmcApplyClose closeAt c1)
        | none => none

/-- `mpmc_recv` (mpmc.h:423-449); same body as `spmc_recv`. -/
def mpmc_recv (receiver : Option Unit) (receiverState : ChanState) (closeAt : Option Nat)
    (c : ChannelMpmc) : Option (ChanStatus × ChannelMpmc × Option (List Nat)) :=
  match receiver with
  | none => some (.errNull, c, none)
  | some _ =>
    if receiverState = .CLOSED then some (.errClosed, mpmcApplyClose closeAt c, none)
    else
      let tail := c.tail
      let c1 : ChannelMpmc := { c with tail := tail + 1 }
      let idx := tail % c1.capacity
      let slot := c1.buffer idx
      if slot.seq = tail + 1 then
        let slotW : Slot := ⟨tail + c1.capacity, slot.data⟩
        some (.ok, mpmcApplyClose closeAt { c1 with buffer := setAt c1.buffer idx slotW },
          some (slot.data.take c1.elem_size))
      else if c.state = .CLOSED ∨ closeAt.isSome then
        some (.errClosed, mpmcApplyClose closeAt c1, none)
      else none

/-! ## Flat arena (src/arenas/arena.c) -/

/-- `AllocationPreference` (arena.h). -/
inductive AllocationPreference where
  | DYNAMIC
  | FIXED
  deriving DecidableEq, Repr

/-- `Arena` (arena.h): contiguous buffer of `capacity` elements, modelled
per-element; `data i` is the byte list of element cell `i`. -/
structure Arena where
  elem_size : Nat
  count : Nat
  capacity : Nat
  data : Nat → List Nat
  preference : AllocationPreference

/-- `arena_create` (arena.c:29-39): `malloc`s the buffer, contents
uninitialized (`mem`); a zero `starting_capacity` defaults to 8. -/
def arena_create (elem_size starting_capacity : Nat) (preference : AllocationPreference)
    (mem : Nat → List Nat) : Arena :=
  { elem_size := elem_size
    count := 0
    capacity := if starting_capacity = 0 then 8 else starting_capacity
    data := mem
    preference := preference }

/-- `arena_reset` (arena.c:129-131). -/
def arena_reset (a : Arena) : Arena :=
  { a with count := 0 }

/-- `arena_alloc` (arena.c:68-91): fetch-add claims index `count`; on
overflow (claim ≥ capacity, any preference) it decrements the counter,
resets the arena, memsets the first element and returns it.  The returned
value is the claimed cell index. -/
def arena_alloc (a : Arena) : Nat × Arena :=
  let index := a.count
  let a1 : Arena := { a with count := a.count + 1 }
  if a.capacity ≤ index then
    let a2 : Arena := { a1 with count := a1.count - 1 }
    let a3 := arena_reset a2
    (0, { a3 with data := setAt a3.data 0 (List.replicate a3.elem_size 0) })
  else
    (index, { a1 with data := setAt a1.data index (List.replicate a1.elem_size 0) })

/-! ## Region arena (src/arenas/r_arena.c) -/

/-- `Region_t` (r_arena.h): one contiguous chunk of `rg_capacity` elements,
modelled per-element (`data offset` = bytes of that cell), plus the epoch
stamp of its last revive. -/
structure Region where
  data : Nat → List Nat
  epoch : Nat

/-- `RegionArena_t` (r_arena.h).  `regions_handler r` is the `r`-th region
pointer (`none` = NULL, as left by `calloc`). -/
structure RegionArena where
  elem_size : Nat
  rg_capacity : Nat
  rgs_in_use : Nat
  count : Nat
  max_rgs : Nat
  current_epoch : Nat
  regions_handler : Nat → Option Region

/-- `r_arena_create` (r_arena.c:10-26): `max_regions = 0` defaults to 1024;
region 0 is eagerly created with `calloc` (zeroed) and stamped with the
current epoch 0. -/
def r_arena_create (elem_size region_capacity max_regions : Nat) : RegionArena :=
  { elem_size := elem_size
    rg_capacity := region_capacity
    rgs_in_use := 1
    count := 0
    max_rgs := if max_regions = 0 then 1024 else max_regions
    current_epoch := 0
    regions_handler := fun r =>
      if r = 0 then some ⟨fun _ => List.replicate elem_size 0, 0⟩ else none }

/-- `_ensure_region` (r_arena.c:28-56).  `none` models `abort()`.  In this
sequential big-step model the compare-exchange on `rgs_in_use` always
succeeds (no competing producer), so the loser spin branch is not taken.
A region slot that is in use but NULL is unreachable from `r_arena_create`;
the code would dereference NULL there, modelled as a no-op. -/
def ensure_region (a : RegionArena) (region : Nat) : Option RegionArena :=
  let used := a.rgs_in_use
  if a.max_rgs ≤ region then none
  else if region < used then
    match a.regions_handler region with
    | none => some a
    | some rg =>
      if rg.epoch ≠ a.current_epoch then
        -- stale stamp: re-stamp and zero the whole region buffer
        let rgW : Region := ⟨fun _ => List.replicate a.elem_size 0, a.current_epoch⟩
        some { a with regions_handler := setAt a.regions_handler region (some rgW) }
      else some a
  else
    -- this producer wins the CAS and creates the region (calloc: zeroed)
    let rgW : Region := ⟨fun _ => List.replicate a.elem_size 0, a.current_epoch⟩
    some { a with rgs_in_use := region + 1
                  regions_handler := setAt a.regions_handler region (some rgW) }

/-- Write `v` into cell `(region, index)`; helper for the `memcpy` in
`r_arena_add`. -/
def writeCell (a : RegionArena) (region index : Nat) (v : List Nat) : RegionArena :=
  match a.regions_handler region with
  | none => a
  | some rg =>
    let rgW : Region := { rg with data := setAt rg.data index v }
    { a with regions_handler := setAt a.regions_handler region (some rgW) }

/-- `r_arena_add` (r_arena.c:58-75): fetch-add the count, ensure the region,
copy `elem_size` bytes of `val` into the cell. -/
def r_arena_add (a : RegionArena) (val : List Nat) : Option RegionArena :=
  let count := a.count
  let index := count % a.rg_capacity
  let region := count / a.rg_capacity
  match ensure_region { a with count := count + 1 } region with
  | none => none
  | some a2 => some (writeCell a2 region index (val.take a2.elem_size))

/-- `r_arena_alloc` (r_arena.c:77-91): fetch-add the count to get logical
index `count`, ensure the region, return the cell.  The returned pointer is
identified by its `(region, offset)` cell. -/
def r_arena_alloc (a : RegionArena) : Option ((Nat × Nat) × RegionArena) :=
  let count := a.count
  let region := count / a.rg_capacity
  let index := count % a.rg_capacity
  match ensure_region { a with count := count + 1 } region with
  | none => none
  | some a2 => some ((region, index), a2)

/-- `r_arena_get` (r_arena.c:93-103): bounds-checked read; returns the cell's
bytes, no state change. -/
def r_arena_get (a : RegionArena) (i : Nat) : Option (List Nat) :=
  if a.count ≤ i ∨ a.count = 0 then none
  else
    match a.regions_handler (i / a.rg_capacity) with
    | none => none
    | some rg => some (rg.data (i % a.rg_capacity))

/-- `r_arena_get_last` (r_arena.c:105-116). -/
def r_arena_get_last (a : RegionArena) : Option (List Nat) :=
  if a.count = 0 then none
  else
    let i := a.count - 1
    match a.regions_handler (i / a.rg_capacity) with
    | none => none
    | some rg => some (rg.data (i % a.rg_capacity))

/-- `r_arena_free` (r_arena.c:118-133): releases the regions and NULLs the
handler; `count` and `rg_capacity` are cleared, `rgs_in_use` is left as is. -/
def r_arena_free (a : RegionArena) : RegionArena :=
  { a with regions_handler := fun _ => none
           count := 0
           rg_capacity := 0 }

/-- `r_arena_reset` (r_arena.c:136-139): O(1) — bump the epoch, zero the
count; regions are untouched. -/
def r_arena_reset (a : RegionArena) : RegionArena :=
  { a with current_epoch := a.current_epoch + 1
           count := 0 }

/-- One region-arena API call, for stating invariants over arbitrary
operation sequences. -/
inductive RArenaOp where
  | add (val : List Nat)
  | alloc
  | get (i : Nat)
  | getLast
  | reset
  | free

/-- The state change of one region-arena call (`none` = the call aborted). -/
def r_arena_step (a : RegionArena) : RArenaOp → Option RegionArena
  | .add v => r_arena_add a v
  | .alloc => (r_arena_alloc a).map Prod.snd
  | .get _ => some a
  | .getLast => some a
  | .reset => some (r_arena_reset a)
  | .free => some (r_arena_free a)

/-- Run a sequence of region-arena calls. -/
def r_arena_run (a : RegionArena) : List RArenaOp → Option RegionArena
  | [] => some a
  | op :: ops =>
    match r_arena_step a op with
    | none => none
    | some a1 => r_arena_run a1 ops

/-- Iterate `r_arena_alloc` `n` times, collecting the returned cells. -/
def r_arena_allocN : Nat → RegionArena → Option (List (Nat × Nat) × RegionArena)
  | 0, a => some ([], a)
  | n + 1, a =>
    match r_arena_alloc a with
    | none => none
    | some (p, a1) =>
      match r_arena_allocN n a1 with
      | none => none
      | some (ps, a2) => some (p :: ps, a2)

/-! ## Job scheduler (src/job_system/jobsystem.c) -/

/-- `JOB_SCHEDULER_REGION_CAPACITY` (jobsystem.h). -/
def JOB_SCHEDULER_REGION_CAPACITY : Nat := 4096

/-- `JOB_SCHEDULER_MAX_REGIONS` (jobsystem.h). -/
def JOB_SCHEDULER_MAX_REGIONS : Nat := 1024

/-- `JOB_SCHEDULER_MAX_JOBS = REGION_CAPACITY * MAX_REGIONS` (jobsystem.h). -/
def JOB_SCHEDULER_MAX_JOBS : Nat :=
  JOB_SCHEDULER_REGION_CAPACITY * JOB_SCHEDULER_MAX_REGIONS

/-- `Scheduler_t` (jobsystem.c:41-47). -/
structure Scheduler where
  accepting_jobs : Nat
  active_jobs : Nat
  jobs_completed_epoch : Nat
  job_arena : RegionArena

/-- `_job_scheduler_reset` (jobsystem.c:231-243): publish
`accepting_jobs = 0`, busy-wait until `active_jobs == 0`, reset the arena,
zero the per-epoch counter, publish `accepting_jobs = 1`.  In this
sequential model nobody else decrements `active_jobs`, so the drain loop
only terminates when `active_jobs` is already 0 (`none` otherwise). -/
def job_scheduler_reset (s : Scheduler) : Option Scheduler :=
  let s1 : Scheduler := { s with accepting_jobs := 0 }
  if s1.active_jobs ≠ 0 then none
  else
    some { s1 with job_arena := r_arena_reset s1.job_arena
                   jobs_completed_epoch := 0
                   accepting_jobs := 1 }

/-- `_job_scheduler_healthcheck` (jobsystem.c:223-229): resets only when
`jobs_completed_epoch > JOB_SCHEDULER_MAX_JOBS - 20`. -/
def job_scheduler_healthcheck (s : Scheduler) : Option Scheduler :=
  if JOB_SCHEDULER_MAX_JOBS - 20 < s.jobs_completed_epoch then
    job_scheduler_reset s
  else some s

/-- The per-job view a worker or submission path has of a `JobHandle_t`:
the pointer bytes that would be sent over the dispatch channel, and the
`unfinished` counter that `threadpool_schedule` loads. -/
structure JobHandleView where
  ptrBytes : List Nat
  unfinished : Nat

/-- `threadpool_schedule` (jobsystem.c:213-219): if the job's `unfinished`
counter is 0, return without sending; otherwise `mpmc_send` the handle
pointer on the dispatch queue. -/
def threadpool_schedule (closeAt : Option Nat) (q : ChannelMpmc) (job : JobHandleView) :
    Option ChannelMpmc :=
  if job.unfinished = 0 then some q
  else (mpmc_send (some ()) closeAt q job.ptrBytes).map Prod.snd

/-- `job_wait` (jobsystem.c:148-150): single-job submission; just forwards
to `threadpool_schedule` on the dispatcher sender. -/
def job_wait (closeAt : Option Nat) (q : ChannelMpmc) (job : JobHandleView) :
    Option ChannelMpmc :=
  threadpool_schedule closeAt q job

/-! ## Concrete drivers for the end-to-end scenarios -/

/-- An 8-byte little-endian element holding the small value `v`, as copied
by `memcpy` of a `uint64_t`. -/
def encode8 (v : Nat) : List Nat :=
  [v % 256, 0, 0, 0, 0, 0, 0, 0]

/-- Send each value (8-byte elements) interleaved with one receive, as in
spec scenario 1; collects the send statuses and the recv results. -/
def spscInterleave (c : ChannelSpsc) :
    List Nat → List ChanStatus × List (ChanStatus × Option (List Nat)) × ChannelSpsc
  | [] => ([], [], c)
  | v :: vs =>
    let s := spsc_try_send (some ()) c (encode8 v)
    let r := spsc_recv (some ()) s.2
    let rest := spscInterleave r.2.1 vs
    (s.1 :: rest.1, (r.1, r.2.2) :: rest.2.1, rest.2.2)

/-- Close-race run on an MPMC queue of capacity 2: two successful sends fill
the queue; a third send claims a slot, spins because the slot is not
re-armed, and observes a concurrent close at its second channel-state load
(`closeAt = some 1`).  Records the third send's status, and the producer
head before and after that erroring call. -/
def mpmcCloseRaceRun : Option (ChanStatus × Nat × Nat) :=
  let c0 := channel_create_mpmc 2 1 (fun _ => [9])
  (mpmc_send (some ()) none c0 [5]).bind fun r1 =>
  (mpmc_send (some ()) none r1.2 [6]).bind fun r2 =>
  (mpmc_send (some ()) (some 1) r2.2 [7]).map fun r3 =>
  (r3.1, r2.2.head, r3.2.head)

/-! ## Lemmas and theorems -/

theorem setAt_same (f : Nat → α) (i : Nat) (v : α) : setAt f i v i = v := by
  simp [setAt]

theorem setAt_other (f : Nat → α) (i j : Nat) (v : α) (h : j ≠ i) :
    setAt f i v j = f j := by
  simp [setAt, h]

theorem mpscApplyClose_buffer (k : Option Nat) (c : ChannelMpsc) :
    (mpscApplyClose k c).buffer = c.buffer := by
  cases k <;> rfl

theorem mpscApplyClose_head (k : Option Nat) (c : ChannelMpsc) :
    (mpscApplyClose k c).head = c.head := by
  cases k <;> rfl

theorem mpscApplyClose_tail (k : Option Nat) (c : ChannelMpsc) :
    (mpscApplyClose k c).tail = c.tail := by
  cases k <;> rfl

theorem spmcApplyClose_buffer (k : Option Nat) (c : ChannelSpmc) :
    (spmcApplyClose k c).buffer = c.buffer := by
  cases k <;> rfl

theorem spmcApplyClose_head (k : Option Nat) (c : ChannelSpmc) :
    (spmcApplyClose k c).head = c.head := by
  cases k <;> rfl

theorem spmcApplyClose_tail (k : Option Nat) (c : ChannelSpmc) :
    (spmcApplyClose k c).tail = c.tail := by
  cases k <;> rfl

theorem mpmcApplyClose_buffer (k : Option Nat) (c : ChannelMpmc) :
    (mpmcApplyClose k c).buffer = c.buffer := by
  cases k <;> rfl

theorem mpmcApplyClose_head (k : Option Nat) (c : ChannelMpmc) :
    (mpmcApplyClose k c).head = c.head := by
  cases k <;> rfl

theorem mpmcApplyClose_tail (k : Option Nat) (c : ChannelMpmc) :
    (mpmcApplyClose k c).tail = c.tail := by
  cases k <;> rfl

theorem spsc_try_send_err_frame (s : Option Unit) (c : ChannelSpsc) (e : List Nat)
    (h : (spsc_try_send s c e).1 ≠ .ok) : (spsc_try_send s c e).2 = c := by
  cases s with
  | none => rfl
  | some _ =>
    simp only [spsc_try_send] at h ⊢
    split_ifs at h ⊢ with h1 h2
    · rfl
    · rfl
    · exact absurd rfl h

theorem spsc_recv_err_frame (s : Option Unit) (c : ChannelSpsc)
    (h : (spsc_recv s c).1 ≠ .ok) :
    (spsc_recv s c).2.1 = c ∧ (spsc_recv s c).2.2 = none := by
  cases s with
  | none => exact ⟨rfl, rfl⟩
  | some _ =>
    simp only [spsc_recv] at h ⊢
    split_ifs at h ⊢ with h1
    · exact ⟨rfl, rfl⟩
    · exact absurd rfl h

theorem mpsc_recv_err_frame (s : Option Unit) (c : ChannelMpsc)
    (h : (mpsc_recv s c).1 ≠ .ok) :
    (mpsc_recv s c).2.1 = c ∧ (mpsc_recv s c).2.2 = none := by
  cases s with
  | none => exact ⟨rfl, rfl⟩
  | some _ =>
    simp only [mpsc_recv] at h ⊢
    split_ifs at h ⊢ with h1 h2
    · exact ⟨rfl, rfl⟩
    · exact ⟨rfl, rfl⟩
    · exact absurd rfl h

theorem mpsc_send_err_frame (s : Option Unit) (k : Option Nat) (c : ChannelMpsc)
    (e : List Nat) (st : ChanStatus) (c' : ChannelMpsc)
    (hrun : mpsc_send s k c e = some (st, c')) (h : st ≠ .ok) :
    c'.buffer = c.buffer ∧ c'.tail = c.tail ∧
      (st = .errNull → c' = c) ∧
      (st = .errClosed → chanObsState c.state k 0 = .CLOSED → c'.head = c.head) ∧
      (st = .errClosed → chanObsState c.state k 0 ≠ .CLOSED → c'.head = c.head + 1) := by
  cases s with
  | none =>
    simp only [mpsc_send, Option.some.injEq, Prod.mk.injEq] at hrun
    obtain ⟨rfl, rfl⟩ := hrun
    exact ⟨rfl, rfl, fun _ => rfl, fun _ _ => rfl, fun hcl _ => absurd hcl (by decide)⟩
  | some _ =>
    simp only [mpsc_send] at hrun
    split_ifs at hrun with h1 h2
    · simp only [Option.some.injEq, Prod.mk.injEq] at hrun
      obtain ⟨rfl, rfl⟩ := hrun
      exact ⟨mpscApplyClose_buffer k c, mpscApplyClose_tail k c,
        fun hnull => absurd hnull (by decide),
        fun _ _ => mpscApplyClose_head k c,
        fun _ hne => absurd h1 hne⟩
    · simp only [Option.some.injEq, Prod.mk.injEq] at hrun
      obtain ⟨rfl, rfl⟩ := hrun
      exact absurd rfl h
    · cases k with
      | none => exact absurd hrun (by simp)
      | some n =>
        simp only [Option.some.injEq, Prod.mk.injEq] at hrun
        obtain ⟨rfl, rfl⟩ := hrun
        exact ⟨rfl, rfl, fun hnull => absurd hnull (by decide),
          fun _ hcl => absurd hcl h1, fun _ _ => rfl⟩

theorem spmc_send_err_frame (s : Option Unit) (k : Option Nat) (c : ChannelSpmc)
    (e : List Nat) (st : ChanStatus) (c' : ChannelSpmc)
    (hrun : spmc_send s k c e = some (st, c')) (h : st ≠ .ok) :
    c'.buffer = c.buffer ∧ c'.tail = c.tail ∧
      (st = .errNull → c' = c) ∧
      (st = .errClosed → chanObsState c.state k 0 = .CLOSED → c'.head = c.head) ∧
      (st = .errClosed → chanObsState c.state k 0 ≠ .CLOSED → c'.head = c.head + 1) := by
  cases s with
  | none =>
    simp only [spmc_send, Option.some.injEq, Prod.mk.injEq] at hrun
    obtain ⟨rfl, rfl⟩ := hrun
    exact ⟨rfl, rfl, fun _ => rfl, fun _ _ => rfl, fun hcl _ => absurd hcl (by decide)⟩
  | some _ =>
    simp only [spmc_send] at hrun
    split_ifs at hrun with h1 h2
    · simp only [Option.some.injEq, Prod.mk.injEq] at hrun
      obtain ⟨rfl, rfl⟩ := hrun
      exact ⟨spmcApplyClose_buffer k c, spmcApplyClose_tail k c,
        fun hnull => absurd hnull (by decide),
        fun _ _ => spmcApplyClose_head k c,
        fun _ hne => absurd h1 hne⟩
    · simp only [Option.some.injEq, Prod.mk.injEq] at hrun
      obtain ⟨rfl, rfl⟩ := hrun
      exact absurd rfl h
    · cases k with
      | none => exact absurd hrun (by simp)
      | some n =>
        simp only [Option.some.injEq, Prod.mk.injEq] at hrun
        obtain ⟨rfl, rfl⟩ := hrun
        exact ⟨rfl, rfl, fun hnull => absurd hnull (by decide),
          fun _ hcl => absurd hcl h1, fun _ _ => rfl⟩

theorem mpmc_send_err_frame (s : Option Unit) (k : Option Nat) (c : ChannelMpmc)
    (e : List Nat) (st : ChanStatus) (c' : ChannelMpmc)
    (hrun : mpmc_send s k c e = some (st, c')) (h : st ≠ .ok) :
    c'.buffer = c.buffer ∧ c'.tail = c.tail ∧
      (st = .errNull → c' = c) ∧
      (st = .errClosed → chanObsState c.state k 0 = .CLOSED → c'.head = c.head) ∧
      (st = .errClosed → chanObsState c.state k 0 ≠ .CLOSED → c'.head = c.head + 1) := by
  cases s with
  | none =>
    simp only [mpmc_send, Option.some.injEq, Prod.mk.injEq] at hrun
    obtain ⟨rfl, rfl⟩ := hrun
    exact ⟨rfl, rfl, fun _ => rfl, fun _ _ => rfl, fun hcl _ => absurd hcl (by decide)⟩
  | some _ =>
    simp only [mpmc_send] at hrun
    split_ifs at hrun with h1 h2
    · simp only [Option.some.injEq, Prod.mk.injEq] at hrun
      obtain ⟨rfl, rfl⟩ := hrun
      exact ⟨mpmcApplyClose_buffer k c, mpmcApplyClose_tail k c,
        fun hnull => absurd hnull (by decide),
        fun _ _ => mpmcApplyClose_head k c,
        fun _ hne => absurd h1 hne⟩
    · simp only [Option.some.injEq, Prod.mk.injEq] at hrun
      obtain ⟨rfl, rfl⟩ := hrun
      exact absurd rfl h
    · cases k with
      | none => exact absurd hrun (by simp)
      | some n =>
        simp only [Option.some.injEq, Prod.mk.injEq] at hrun
        obtain ⟨rfl, rfl⟩ := hrun
        exact ⟨rfl, rfl, fun hnull => absurd hnull (by decide),
          fun _ hcl => absurd hcl h1, fun _ _ => rfl⟩

theorem spmc_recv_err_frame (r : Option Unit) (rs : ChanState) (k : Option Nat)
    (c : ChannelSpmc) (st : ChanStatus) (c' : ChannelSpmc) (out : Option (List Nat))
    (hrun : spmc_recv r rs k c = some (st, c', out)) (h : st ≠ .ok) :
    c'.buffer = c.buffer ∧ c'.head = c.head ∧ out = none ∧
      (st = .errNull → c' = c) ∧
      (st = .errClosed → rs = .CLOSED → c'.tail = c.tail) ∧
      (st = .errClosed → rs ≠ .CLOSED → c'.tail = c.tail + 1) := by
  cases r with
  | none =>
    simp only [spmc_recv, Option.some.injEq, Prod.mk.injEq] at hrun
    obtain ⟨rfl, rfl, rfl⟩ := hrun
    exact ⟨rfl, rfl, rfl, fun _ => rfl, fun _ _ => rfl, fun hcl _ => absurd hcl (by decide)⟩
  | some _ =>
    simp only [spmc_recv] at hrun
    split_ifs at hrun with h1 h2 h3
    · simp only [Option.some.injEq, Prod.mk.injEq] at hrun
      obtain ⟨rfl, rfl, rfl⟩ := hrun
      exact ⟨spmcApplyClose_buffer k c, spmcApplyClose_head k c, rfl,
        fun hnull => absurd hnull (by decide),
        fun _ _ => spmcApplyClose_tail k c,
        fun _ hne => absurd h1 hne⟩
    · simp only [Option.some.injEq, Prod.mk.injEq] at hrun
      obtain ⟨rfl, rfl, rfl⟩ := hrun
      exact absurd rfl h
    · simp only [Option.some.injEq, Prod.mk.injEq] at hrun
      obtain ⟨rfl, rfl, rfl⟩ := hrun
      exact ⟨spmcApplyClose_buffer k _, spmcApplyClose_head k _, rfl,
        fun hnull => absurd hnull (by decide),
        fun _ hcl => absurd hcl h1,
        fun _ _ => spmcApplyClose_tail k _⟩

theorem mpmc_recv_err_frame (r : Option Unit) (rs : ChanState) (k : Option Nat)
    (c : ChannelMpmc) (st : ChanStatus) (c' : ChannelMpmc) (out : Option (List Nat))
    (hrun : mpmc_recv r rs k c = some (st, c', out)) (h : st ≠ .ok) :
    c'.buffer = c.buffer ∧ c'.head = c.head ∧ out = none ∧
      (st = .errNull → c' = c) ∧
      (st = .errClosed → rs = .CLOSED → c'.tail = c.tail) ∧
      (st = .errClosed → rs ≠ .CLOSED → c'.tail = c.tail + 1) := by
  cases r with
  | none =>
    simp only [mpmc_recv, Option.some.injEq, Prod.mk.injEq] at hrun
    obtain ⟨rfl, rfl, rfl⟩ := hrun
    exact ⟨rfl, rfl, rfl, fun _ => rfl, fun _ _ => rfl, fun hcl _ => absurd hcl (by decide)⟩
  | some _ =>
    simp only [mpmc_recv] at hrun
    split_ifs at hrun with h1 h2 h3
    · simp only [Option.some.injEq, Prod.mk.injEq] at hrun
      obtain ⟨rfl, rfl, rfl⟩ := hrun
      exact ⟨mpmcApplyClose_buffer k c, mpmcApplyClose_head k c, rfl,
        fun hnull => absurd hnull (by decide),
        fun _ _ => mpmcApplyClose_tail k c,
        fun _ hne => absurd h1 hne⟩
    · simp only [Option.some.injEq, Prod.mk.injEq] at hrun
      obtain ⟨rfl, rfl, rfl⟩ := hrun
      exact absurd rfl h
    · simp only [Option.some.injEq, Prod.mk.injEq] at hrun
      obtain ⟨rfl, rfl, rfl⟩ := hrun
      exact ⟨mpmcApplyClose_buffer k _, mpmcApplyClose_head k _, rfl,
        fun hnull => absurd hnull (by decide),
        fun _ hcl => absurd hcl h1,
        fun _ _ => mpmcApplyClose_tail k _⟩

/-- C1 counterexample.  On an MPMC queue of capacity 2 holding two
unconsumed elements, a third `mpmc_send` that observes a concurrent close
while spinning returns `Closed` — an error status — yet leaves the producer
head cursor advanced from 2 to 3.  So an error-returning call does change
observable queue state, refuting the claim. -/
theorem mpmc_send_closed_error_moves_cursor :
    mpmcCloseRaceRun = some (.errClosed, 2, 3) ∧ (2 : Nat) ≠ 3 := by
  decide

/-- C1 (amended).  Every error return leaves all slot sequence numbers and
all slot element storage unchanged, writes nothing to `out`, and leaves the
cursor on the opposite side unchanged.  For the call's own cursor, the two
Closed cases differ and are attributed to their branches: an error taken
before a slot position is claimed — Null handle (the full state is then
returned unchanged), Closed observed by the entry state load
(`chanObsState _ _ 0 = CLOSED` for the sends, the handle's own
`receiver_state` for the blocking recvs), SPSC Full, and the non-blocking
Empty — leaves that cursor unchanged; a Closed observed only during the
slot wait (the entry load saw OPEN, resp. the handle was open) leaves the
fetch-added cursor incremented by exactly one. -/
theorem error_returns_frame_amended :
    (∀ s c e, (spsc_try_send s c e).1 ≠ .ok → (spsc_try_send s c e).2 = c)
    ∧ (∀ s c, (spsc_recv s c).1 ≠ .ok →
        (spsc_recv s c).2.1 = c ∧ (spsc_recv s c).2.2 = none)
    ∧ (∀ s c, (mpsc_recv s c).1 ≠ .ok →
        (mpsc_recv s c).2.1 = c ∧ (mpsc_recv s c).2.2 = none)
    ∧ (∀ s k c e st c', mpsc_send s k c e = some (st, c') → st ≠ .ok →
        c'.buffer = c.buffer ∧ c'.tail = c.tail ∧
          (st = .errNull → c' = c) ∧
          (st = .errClosed → chanObsState c.state k 0 = .CLOSED → c'.head = c.head) ∧
          (st = .errClosed → chanObsState c.state k 0 ≠ .CLOSED → c'.head = c.head + 1))
    ∧ (∀ s k c e st c', spmc_send s k c e = some (st, c') → st ≠ .ok →
        c'.buffer = c.buffer ∧ c'.tail = c.tail ∧
          (st = .errNull → c' = c) ∧
          (st = .errClosed → chanObsState c.state k 0 = .CLOSED → c'.head = c.head) ∧
          (st = .errClosed → chanObsState c.state k 0 ≠ .CLOSED → c'.head = c.head + 1))
    ∧ (∀ s k c e st c', mpmc_send s k c e = some (st, c') → st ≠ .ok →
        c'.buffer = c.buffer ∧ c'.tail = c.tail ∧
          (st = .errNull → c' = c) ∧
          (st = .errClosed → chanObsState c.state k 0 = .CLOSED → c'.head = c.head) ∧
          (st = .errClosed → chanObsState c.state k 0 ≠ .CLOSED → c'.head = c.head + 1))
    ∧ (∀ r rs k c st c' out, spmc_recv r rs k c = some (st, c', out) → st ≠ .ok →
        c'.buffer = c.buffer ∧ c'.head = c.head ∧ out = none ∧
          (st = .errNull → c' = c) ∧
          (st = .errClosed → rs = .CLOSED → c'.tail = c.tail) ∧
          (st = .errClosed → rs ≠ .CLOSED → c'.tail = c.tail + 1))
    ∧ (∀ r rs k c st c' out, mpmc_recv r rs k c = some (st, c', out) → st ≠ .ok →
        c'.buffer = c.buffer ∧ c'.head = c.head ∧ out = none ∧
          (st = .errNull → c' = c) ∧
          (st = .errClosed → rs = .CLOSED → c'.tail = c.tail) ∧
          (st = .errClosed → rs ≠ .CLOSED → c'.tail = c.tail + 1)) :=
  ⟨spsc_try_send_err_frame, spsc_recv_err_frame, mpsc_recv_err_frame,
   fun s k c e st c' => mpsc_send_err_frame s k c e st c',
   fun s k c e st c' => spmc_send_err_frame s k c e st c',
   fun s k c e st c' => mpmc_send_err_frame s k c e st c',
   fun r rs k c st c' out => spmc_recv_err_frame r rs k c st c' out,
   fun r rs k c st c' out => mpmc_recv_err_frame r rs k c st c' out⟩

/-- Witness for the amended C1 theorem: concrete instances of the SPSC-Full
conjunct, the non-blocking-Empty conjunct, and both Closed cases of the
MPMC send conjunct — Closed at entry keeps the head at 0, Closed during the
slot wait leaves the head at 0 + 1. -/
theorem error_returns_frame_amended_witness :
    (spsc_try_send (some ())
        { buffer := fun _ => [3], capacity := 1, elem_size := 1, head := 1, tail := 0,
          state := .OPEN } [7]).2 =
      { buffer := fun _ => [3], capacity := 1, elem_size := 1, head := 1, tail := 0,
        state := .OPEN } ∧
    ((mpsc_recv (some ()) (channel_create_mpsc 2 1 (fun _ => [9]))).2.1 =
        channel_create_mpsc 2 1 (fun _ => [9]) ∧
      (mpsc_recv (some ()) (channel_create_mpsc 2 1 (fun _ => [9]))).2.2 = none) ∧
    (⟨fun _ => ⟨0, [2]⟩, 1, 1, 0, 0, 0, 0, .CLOSED⟩ : ChannelMpmc).head =
      (⟨fun _ => ⟨0, [2]⟩, 1, 1, 0, 0, 0, 0, .CLOSED⟩ : ChannelMpmc).head ∧
    (⟨fun _ => ⟨5, [1]⟩, 1, 1, 1, 0, 0, 0, .CLOSED⟩ : ChannelMpmc).head =
      (⟨fun _ => ⟨5, [1]⟩, 1, 1, 0, 0, 0, 0, .OPEN⟩ : ChannelMpmc).head + 1 := by
  refine ⟨error_returns_frame_amended.1 (some ()) _ [7] (by decide),
    (error_returns_frame_amended.2.2.1 (some ()) (channel_create_mpsc 2 1 (fun _ => [9]))
      (by decide)), ?_, ?_⟩
  · exact (error_returns_frame_amended.2.2.2.2.2.1 (some ()) none
        (⟨fun _ => ⟨0, [2]⟩, 1, 1, 0, 0, 0, 0, .CLOSED⟩ : ChannelMpmc) [3] .errClosed
        (⟨fun _ => ⟨0, [2]⟩, 1, 1, 0, 0, 0, 0, .CLOSED⟩ : ChannelMpmc) rfl
        (by decide)).2.2.2.1 rfl (by decide)
  · exact (error_returns_frame_amended.2.2.2.2.2.1 (some ()) (some 1)
        (⟨fun _ => ⟨5, [1]⟩, 1, 1, 0, 0, 0, 0, .OPEN⟩ : ChannelMpmc) [7] .errClosed
        (⟨fun _ => ⟨5, [1]⟩, 1, 1, 1, 0, 0, 0, .CLOSED⟩ : ChannelMpmc) rfl
        (by decide)).2.2.2.2 rfl (by decide)

/-- C2 counterexample.  `channel_create_mpsc` gives each slot the bytes the
allocator returned (`realloc`, uninitialized); with allocator contents `[7]`
slot 0's element storage is `[7]`, not the zero byte — so storage is not
zero-initialized. -/
theorem create_storage_not_zeroed :
    ((channel_create_mpsc 1 1 (fun _ => [7])).buffer 0).data = [7] ∧
      [7] ≠ List.replicate 1 (0 : Nat) := by
  decide

/-- C2 (amended).  Every `create(capacity, element_size)` returns a queue in
state OPEN with both cursors 0; in the slot-based variants (MPSC, SPMC,
MPMC) slot `i` has sequence number `i` for every `i < capacity`; the
element storage is whatever the allocator returned (uninitialized), not
zeroed; SPSC has no per-slot sequence numbers at all, only a flat
uninitialized element buffer. -/
theorem create_state_amended (capacity elem_size : Nat) (mem : Nat → List Nat) :
    ((channel_create_spsc capacity elem_size mem).state = .OPEN ∧
      (channel_create_spsc capacity elem_size mem).head = 0 ∧
      (channel_create_spsc capacity elem_size mem).tail = 0 ∧
      (channel_create_spsc capacity elem_size mem).buffer = mem)
    ∧ ((channel_create_mpsc capacity elem_size mem).state = .OPEN ∧
      (channel_create_mpsc capacity elem_size mem).head = 0 ∧
      (channel_create_mpsc capacity elem_size mem).tail = 0 ∧
      ∀ i, i < capacity →
        (channel_create_mpsc capacity elem_size mem).buffer i = ⟨i, mem i⟩)
    ∧ ((channel_create_spmc capacity elem_size mem).state = .OPEN ∧
      (channel_create_spmc capacity elem_size mem).head = 0 ∧
      (channel_create_spmc capacity elem_size mem).tail = 0 ∧
      ∀ i, i < capacity →
        (channel_create_spmc capacity elem_size mem).buffer i = ⟨i, mem i⟩)
    ∧ ((channel_create_mpmc capacity elem_size mem).state = .OPEN ∧
      (channel_create_mpmc capacity elem_size mem).head = 0 ∧
      (channel_create_mpmc capacity elem_size mem).tail = 0 ∧
      ∀ i, i < capacity →
        (channel_create_mpmc capacity elem_size mem).buffer i = ⟨i, mem i⟩) :=
  ⟨⟨rfl, rfl, rfl, rfl⟩,
   ⟨rfl, rfl, rfl, fun _ _ => rfl⟩,
   ⟨rfl, rfl, rfl, fun _ _ => rfl⟩,
   ⟨rfl, rfl, rfl, fun _ _ => rfl⟩⟩

/-- Witness for the amended C2 theorem at capacity 2, element size 1,
allocator contents `[9]` per slot. -/
theorem create_state_amended_witness :
    (channel_create_mpmc 2 1 (fun _ => [9])).state = .OPEN ∧
      (channel_create_mpmc 2 1 (fun _ => [9])).buffer 1 = ⟨1, [9]⟩ := by
  exact ⟨(create_state_amended 2 1 (fun _ => [9])).2.2.2.1,
    (create_state_amended 2 1 (fun _ => [9])).2.2.2.2.2.2 1 (by decide)⟩

/-- C5.  SPSC round-trip scenario: on a capacity-4 SPSC queue of 8-byte
elements (buffer initially holding allocator junk bytes 55), sending
`1..=8` interleaved with 8 receives makes every `try_send` return OK, the
8 `recv` calls return the 8-byte encodings of 1..8 in order, and a 9th
`recv` returns `Empty`. -/
theorem spsc_roundtrip_scenario :
    (let r := spscInterleave (channel_create_spsc 4 8 (fun _ => List.replicate 8 55))
      [1, 2, 3, 4, 5, 6, 7, 8]
     (r.1, r.2.1, (spsc_recv (some ()) r.2.2).1)) =
      (List.replicate 8 .ok,
       [1, 2, 3, 4, 5, 6, 7, 8].map (fun v => (ChanStatus.ok, some (encode8 v))),
       .errEmpty) := by
  decide

/-- C9.  `threadpool_schedule` on a job handle whose `unfinished` counter is
0 returns with the dispatch queue unchanged: nothing is sent, the job is
silently dropped.  (`job_wait`, `job_then`, `job_chain`, `job_chain_arr`
and the worker continuation path all submit through this function.) -/
theorem unfinished_zero_job_never_enqueued (k : Option Nat) (q : ChannelMpmc)
    (job : JobHandleView) (h : job.unfinished = 0) :
    threadpool_schedule k q job = some q := by
  simp [threadpool_schedule, h]

/-- Witness for C9: a concrete zero-`unfinished` job on a fresh dispatch
queue is dropped. -/
theorem unfinished_zero_job_never_enqueued_witness :
    threadpool_schedule none (channel_create_mpmc 4 8 (fun _ => List.replicate 8 0))
      ⟨[1, 0, 0, 0, 0, 0, 0, 0], 0⟩ =
      some (channel_create_mpmc 4 8 (fun _ => List.replicate 8 0)) := by
  exact unfinished_zero_job_never_enqueued none _ _ rfl

/-- C10.  A non-blocking receive (SPSC or MPSC) that returns `Empty` writes
nothing to the caller's out buffer and leaves the whole channel — consumer
tail, producer head and (for MPSC) every slot sequence number — unchanged. -/
theorem recv_empty_frame :
    (∀ r c, (spsc_recv r c).1 = .errEmpty →
      (spsc_recv r c).2.1 = c ∧ (spsc_recv r c).2.2 = none)
    ∧ (∀ r c, (mpsc_recv r c).1 = .errEmpty →
      (mpsc_recv r c).2.1 = c ∧ (mpsc_recv r c).2.2 = none) :=
  ⟨fun r c h => spsc_recv_err_frame r c (by simp [h]),
   fun r c h => mpsc_recv_err_frame r c (by simp [h])⟩

/-- Witness for C10: concrete empty SPSC and MPSC channels. -/
theorem recv_empty_frame_witness :
    ((spsc_recv (some ()) (channel_create_spsc 2 1 (fun _ => [4]))).2.1 =
        channel_create_spsc 2 1 (fun _ => [4]) ∧
      (spsc_recv (some ()) (channel_create_spsc 2 1 (fun _ => [4]))).2.2 = none)
    ∧ ((mpsc_recv (some ()) (channel_create_mpsc 2 1 (fun _ => [4]))).2.1 =
        channel_create_mpsc 2 1 (fun _ => [4]) ∧
      (mpsc_recv (some ()) (channel_create_mpsc 2 1 (fun _ => [4]))).2.2 = none) := by
  exact ⟨recv_empty_frame.1 (some ()) _ (by decide),
    recv_empty_frame.2 (some ()) _ (by decide)⟩

/-- C6 counterexample.  A health-check run on a scheduler with
`jobs_completed_epoch = 5` (below the `max_jobs − 20` threshold) does not
reset anything: the scheduler is returned unchanged, and
`jobs_completed_epoch` is still 5, not 0. -/
theorem healthcheck_below_threshold_keeps_count :
    job_scheduler_healthcheck
        { accepting_jobs := 1, active_jobs := 0, jobs_completed_epoch := 5,
          job_arena := r_arena_create 1 1 1 } =
      some { accepting_jobs := 1, active_jobs := 0, jobs_completed_epoch := 5,
             job_arena := r_arena_create 1 1 1 } ∧
      (5 : Nat) ≠ 0 :=
  ⟨rfl, by decide⟩

/-- C6 (amended).  A health-check whose trigger condition holds
(`jobs_completed_epoch > max_jobs − 20`) and whose drain loop completes
(`active_jobs = 0`) leaves `jobs_completed_epoch = 0` and
`accepting_jobs = 1`; a health-check below the threshold returns the
scheduler unchanged, so `jobs_completed_epoch` may stay nonzero. -/
theorem healthcheck_postcondition_amended (s : Scheduler) :
    (s.jobs_completed_epoch ≤ JOB_SCHEDULER_MAX_JOBS - 20 →
      job_scheduler_healthcheck s = some s)
    ∧ (JOB_SCHEDULER_MAX_JOBS - 20 < s.jobs_completed_epoch → s.active_jobs = 0 →
      ∀ s', job_scheduler_healthcheck s = some s' →
        s'.jobs_completed_epoch = 0 ∧ s'.accepting_jobs = 1) := by
  constructor
  · intro h
    simp [job_scheduler_healthcheck, Nat.not_lt.2 h]
  · intro h hact s' h'
    simp [job_scheduler_healthcheck, h, job_scheduler_reset, hact] at h'
    subst h'
    exact ⟨rfl, rfl⟩

/-- Witness for the amended C6 theorem: both branches at concrete
schedulers. -/
theorem healthcheck_postcondition_amended_witness :
    job_scheduler_healthcheck
        { accepting_jobs := 1, active_jobs := 0, jobs_completed_epoch := 7,
          job_arena := r_arena_create 1 1 1 } =
      some { accepting_jobs := 1, active_jobs := 0, jobs_completed_epoch := 7,
             job_arena := r_arena_create 1 1 1 } ∧
    ((4194300 : Nat) = 0 → False) ∧
    ({ accepting_jobs := 1, active_jobs := 0, jobs_completed_epoch := 0,
       job_arena := r_arena_reset (r_arena_create 1 1 1) : Scheduler
      }.jobs_completed_epoch = 0 ∧
     ({ accepting_jobs := 1, active_jobs := 0, jobs_completed_epoch := 0,
        job_arena := r_arena_reset (r_arena_create 1 1 1) : Scheduler }).accepting_jobs = 1) := by
  refine ⟨(healthcheck_postcondition_amended _).1 (by decide), by decide, ?_⟩
  exact (healthcheck_postcondition_amended
      { accepting_jobs := 1, active_jobs := 0, jobs_completed_epoch := 4194300,
        job_arena := r_arena_create 1 1 1 }).2 (by decide) rfl _ rfl

/-- C7.  On a FIXED-preference flat arena, an `arena_alloc` whose claimed
index (the pre-increment count) equals or exceeds the capacity resets the
arena's count to 0 and returns the first slot (index 0), whose
`elem_size` bytes have been zeroed by the `memset`. -/
theorem arena_alloc_fixed_overflow_resets (a : Arena)
    (hpref : a.preference = .FIXED) (hfull : a.capacity ≤ a.count) :
    (arena_alloc a).1 = 0 ∧ (arena_alloc a).2.count = 0 ∧
      (arena_alloc a).2.data 0 = List.replicate a.elem_size 0 := by
  simp [arena_alloc, hfull, arena_reset, setAt]

/-- Witness for C7: a full FIXED arena of capacity 2 with junk contents. -/
theorem arena_alloc_fixed_overflow_resets_witness :
    (arena_alloc { elem_size := 1, count := 2, capacity := 2, data := (fun _ => [8]), preference := .FIXED }).1 = 0 ∧
    (arena_alloc { elem_size := 1, count := 2, capacity := 2, data := (fun _ => [8]), preference := .FIXED }).2.count = 0 ∧
    (arena_alloc { elem_size := 1, count := 2, capacity := 2, data := (fun _ => [8]), preference := .FIXED }).2.data 0 = List.replicate 1 0 := by
  exact arena_alloc_fixed_overflow_resets _ rfl (by decide)

theorem ensure_region_fields (a : RegionArena) (r : Nat) (a' : RegionArena)
    (h : ensure_region a r = some a') :
    a'.count = a.count ∧ a'.rg_capacity = a.rg_capacity ∧ a'.elem_size = a.elem_size ∧
      a'.current_epoch = a.current_epoch ∧ a'.max_rgs = a.max_rgs := by
  simp only [ensure_region] at h
  split_ifs at h with h1 h2
  · cases hm : a.regions_handler r with
    | none =>
      rw [hm] at h
      dsimp only at h
      obtain rfl := Option.some.inj h
      exact ⟨rfl, rfl, rfl, rfl, rfl⟩
    | some rg =>
      rw [hm] at h
      dsimp only at h
      split_ifs at h with h3
      · obtain rfl := Option.some.inj h
        exact ⟨rfl, rfl, rfl, rfl, rfl⟩
      · obtain rfl := Option.some.inj h
        exact ⟨rfl, rfl, rfl, rfl, rfl⟩
  · obtain rfl := Option.some.inj h
    exact ⟨rfl, rfl, rfl, rfl, rfl⟩

theorem r_arena_alloc_spec (a : RegionArena) (p : Nat × Nat) (a' : RegionArena)
    (h : r_arena_alloc a = some (p, a')) :
    p = (a.count / a.rg_capacity, a.count % a.rg_capacity) ∧ a'.count = a.count + 1 ∧
      a'.rg_capacity = a.rg_capacity := by
  simp only [r_arena_alloc] at h
  cases he : ensure_region { a with count := a.count + 1 } (a.count / a.rg_capacity) with
  | none => rw [he] at h; cases h
  | some a2 =>
    rw [he] at h
    obtain ⟨h1, h2⟩ := Prod.mk.inj (Option.some.inj h)
    obtain ⟨hc, hcap, -, -, -⟩ := ensure_region_fields _ _ _ he
    subst h2
    exact ⟨h1.symm, hc, hcap⟩

theorem r_arena_allocN_cells (N : Nat) :
    ∀ (a : RegionArena) ps a', r_arena_allocN N a = some (ps, a') →
      ps = (List.range N).map
        (fun k => ((a.count + k) / a.rg_capacity, (a.count + k) % a.rg_capacity)) := by
  induction N with
  | zero =>
    intro a ps a' h
    obtain ⟨h1, -⟩ := Prod.mk.inj (Option.some.inj h)
    simp [h1.symm]
  | succ n ih =>
    intro a ps a' h
    simp only [r_arena_allocN] at h
    cases h1 : r_arena_alloc a with
    | none => rw [h1] at h; cases h
    | some pa =>
      obtain ⟨p, a1⟩ := pa
      rw [h1] at h
      dsimp only at h
      cases h2 : r_arena_allocN n a1 with
      | none => rw [h2] at h; cases h
      | some psa =>
        obtain ⟨ps1, a2⟩ := psa
        rw [h2] at h
        dsimp only at h
        obtain ⟨hps, -⟩ := Prod.mk.inj (Option.some.inj h)
        obtain ⟨hp, hcount, hcap⟩ := r_arena_alloc_spec a p a1 h1
        have htail := ih a1 ps1 a2 h2
        subst hps
        rw [List.range_succ_eq_map, List.map_cons, List.map_map]
        rw [htail, hcount, hcap, hp]
        refine congrArg₂ _ (by simp) (List.map_congr_left ?_)
        intro k _
        simp only [Function.comp]
        have hk : a.count + 1 + k = a.count + (k + 1) := by omega
        rw [hk]

/-- The cell map `i ↦ (i / c, i % c)` is injective (for `c = 0`, `i % 0 = i`
already determines `i`). -/
theorem cell_map_injective (c x y : Nat)
    (h : (x / c, x % c) = (y / c, y % c)) : x = y := by
  obtain ⟨h1, h2⟩ := Prod.mk.inj h
  have hx := Nat.div_add_mod x c
  have hy := Nat.div_add_mod y c
  rw [h1, h2] at hx
  omega

/-- C3.  From any region-arena state, a sequence of `N` successful
`r_arena_alloc` calls with no intervening reset returns, for its `k`-th
call, the cell `(i / region_capacity, i % region_capacity)` where
`i = count + k` is the index obtained by the fetch-add, and the returned
cells are pairwise distinct. -/
theorem r_arena_alloc_cells_distinct (a : RegionArena) (N : Nat)
    (hc : 1 ≤ a.rg_capacity) :
    ∀ ps, (r_arena_allocN N a).map Prod.fst = some ps →
      ps = (List.range N).map
          (fun k => ((a.count + k) / a.rg_capacity, (a.count + k) % a.rg_capacity)) ∧
        ps.Pairwise (· ≠ ·) := by
  intro ps h
  cases hx : r_arena_allocN N a with
  | none => rw [hx] at h; cases h
  | some pa =>
    rw [hx] at h
    obtain rfl := Option.some.inj h
    have hps := r_arena_allocN_cells N a pa.1 pa.2 (by rw [hx])
    refine ⟨hps, ?_⟩
    rw [hps, List.pairwise_map]
    have hlt : (List.range N).Pairwise (· < ·) := List.pairwise_lt_range N
    refine hlt.imp ?_
    intro i j hij hcells
    have heq := cell_map_injective a.rg_capacity (a.count + i) (a.count + j) hcells
    omega

/-- Witness for C3: three allocations on a fresh arena with
`region_capacity = 2`, `max_regions = 2` return cells
`(0,0), (0,1), (1,0)` — as computed from the fetch-added indices — and
they are pairwise distinct. -/
theorem r_arena_alloc_cells_distinct_witness :
    [(0, 0), (0, 1), (1, 0)] = (List.range 3).map
        (fun k => (((r_arena_create 1 2 2).count + k) / (r_arena_create 1 2 2).rg_capacity,
          ((r_arena_create 1 2 2).count + k) % (r_arena_create 1 2 2).rg_capacity)) ∧
      ([(0, 0), (0, 1), (1, 0)] : List (Nat × Nat)).Pairwise (· ≠ ·) := by
  exact r_arena_alloc_cells_distinct (r_arena_create 1 2 2) 3 (by decide)
    [(0, 0), (0, 1), (1, 0)] rfl

/-- C4.  `r_arena_reset` bumps the epoch by exactly one and zeroes the
count without touching any region (the region table, including every
region's buffer and stamp, is bit-for-bit the arena's old one); the next
allocation after a reset returns cell `(0, 0)` whose bytes have been
zeroed, because region 0's stale stamp triggers the lazy re-zero and
re-stamp; and a region whose stamp already equals the current epoch is
left completely untouched by `_ensure_region`, so a region is zeroed at
most once per epoch, on first touch. -/
theorem r_arena_reset_lazy_zero (a : RegionArena) :
    ((r_arena_reset a).current_epoch = a.current_epoch + 1 ∧
      (r_arena_reset a).count = 0 ∧
      (r_arena_reset a).regions_handler = a.regions_handler ∧
      (r_arena_reset a).rgs_in_use = a.rgs_in_use)
    ∧ (∀ rg0, a.regions_handler 0 = some rg0 → rg0.epoch ≤ a.current_epoch →
        1 ≤ a.rgs_in_use → 1 ≤ a.max_rgs →
        (r_arena_alloc (r_arena_reset a)).map
            (fun r => (r.1, (r.2.regions_handler 0).map (fun rg => (rg.epoch, rg.data 0)))) =
          some ((0, 0), some (a.current_epoch + 1, List.replicate a.elem_size 0)))
    ∧ (∀ r rg, r < a.rgs_in_use → a.regions_handler r = some rg →
        rg.epoch = a.current_epoch → ¬ a.max_rgs ≤ r → ensure_region a r = some a) := by
  refine ⟨⟨rfl, rfl, rfl, rfl⟩, ?_, ?_⟩
  · intro rg0 h0 hep hrg hmax
    have hstale : rg0.epoch ≠ a.current_epoch + 1 := by omega
    simp only [r_arena_alloc, r_arena_reset, ensure_region, Nat.zero_div, Nat.zero_mod]
    rw [if_neg (by omega), if_pos (by omega : 0 < a.rgs_in_use), h0]
    simp [hstale, setAt]
  · intro r rg hru hr hep hmax
    simp only [ensure_region]
    rw [if_neg hmax, if_pos hru, hr]
    simp [hep]

/-- Witness for C4: a fresh arena (`elem_size = 2`, `region_capacity = 3`,
`max_regions = 2`) after one reset hands out the zero-filled cell `(0,0)`
stamped with epoch 1, and a non-stale touch of region 0 is a no-op. -/
theorem r_arena_reset_lazy_zero_witness :
    (r_arena_alloc (r_arena_reset (r_arena_create 2 3 2))).map
        (fun r => (r.1, (r.2.regions_handler 0).map (fun rg => (rg.epoch, rg.data 0)))) =
      some ((0, 0), some (1, List.replicate 2 0)) ∧
    ensure_region (r_arena_create 2 3 2) 0 = some (r_arena_create 2 3 2) := by
  constructor
  · exact (r_arena_reset_lazy_zero (r_arena_create 2 3 2)).2.1
      ⟨fun _ => List.replicate 2 0, 0⟩ rfl (by decide) (by decide) (by decide)
  · exact (r_arena_reset_lazy_zero (r_arena_create 2 3 2)).2.2 0
      ⟨fun _ => List.replicate 2 0, 0⟩ (by decide) rfl rfl (by decide)

theorem ensure_region_rgs_bound (a : RegionArena) (r : Nat) (a' : RegionArena)
    (h : ensure_region a r = some a') (hinv : a.rgs_in_use ≤ a.max_rgs) :
    a'.rgs_in_use ≤ a'.max_rgs := by
  simp only [ensure_region] at h
  split_ifs at h with h1 h2
  · cases hm : a.regions_handler r with
    | none =>
      rw [hm] at h
      dsimp only at h
      obtain rfl := Option.some.inj h
      exact hinv
    | some rg =>
      rw [hm] at h
      dsimp only at h
      split_ifs at h with h3
      · obtain rfl := Option.some.inj h
        exact hinv
      · obtain rfl := Option.some.inj h
        exact hinv
  · obtain rfl := Option.some.inj h
    simp only
    omega

theorem writeCell_rgs (a : RegionArena) (r i : Nat) (v : List Nat) :
    (writeCell a r i v).rgs_in_use = a.rgs_in_use ∧
      (writeCell a r i v).max_rgs = a.max_rgs := by
  unfold writeCell
  cases a.regions_handler r <;> exact ⟨rfl, rfl⟩

theorem r_arena_step_rgs_bound (a : RegionArena) (op : RArenaOp) (a' : RegionArena)
    (h : r_arena_step a op = some a') (hinv : a.rgs_in_use ≤ a.max_rgs) :
    a'.rgs_in_use ≤ a'.max_rgs := by
  cases op with
  | add v =>
    simp only [r_arena_step, r_arena_add] at h
    cases he : ensure_region { a with count := a.count + 1 } (a.count / a.rg_capacity) with
    | none => rw [he] at h; cases h
    | some a2 =>
      rw [he] at h
      dsimp only at h
      obtain rfl := Option.some.inj h
      have h2 := ensure_region_rgs_bound _ _ _ he hinv
      have h3 := writeCell_rgs a2 (a.count / a.rg_capacity) (a.count % a.rg_capacity)
        ((v.take a2.elem_size))
      omega
  | alloc =>
    simp only [r_arena_step, r_arena_alloc] at h
    cases he : ensure_region { a with count := a.count + 1 } (a.count / a.rg_capacity) with
    | none => rw [he] at h; cases h
    | some a2 =>
      rw [he] at h
      dsimp only [Option.map] at h
      obtain rfl := Option.some.inj h
      exact ensure_region_rgs_bound _ _ _ he hinv
  | get i =>
    obtain rfl := Option.some.inj h
    exact hinv
  | getLast =>
    obtain rfl := Option.some.inj h
    exact hinv
  | reset =>
    obtain rfl := Option.some.inj h
    exact hinv
  | free =>
    obtain rfl := Option.some.inj h
    exact hinv

theorem r_arena_run_rgs_bound (ops : List RArenaOp) :
    ∀ (a a' : RegionArena), a.rgs_in_use ≤ a.max_rgs →
      r_arena_run a ops = some a' → a'.rgs_in_use ≤ a'.max_rgs := by
  induction ops with
  | nil =>
    intro a a' hinv h
    obtain rfl := Option.some.inj h
    exact hinv
  | cons op ops ih =>
    intro a a' hinv h
    simp only [r_arena_run] at h
    cases hs : r_arena_step a op with
    | none => rw [hs] at h; cases h
    | some a1 =>
      rw [hs] at h
      dsimp only at h
      exact ih a1 a' (r_arena_step_rgs_bound a op a1 hs hinv) h

/-- C8.  For every region arena built by `r_arena_create` and every
sequence of API calls (add, alloc, get, get_last, reset, free), every state
the arena reaches satisfies `rgs_in_use ≤ max_rgs`; and an allocation whose
computed region index reaches the `max_rgs` bound aborts (`_ensure_region`
calls `abort()`) instead of growing the table past the bound. -/
theorem regions_in_use_bounded :
    (∀ (es rc mr : Nat) (ops : List RArenaOp) (a' : RegionArena),
      r_arena_run (r_arena_create es rc mr) ops = some a' →
        a'.rgs_in_use ≤ a'.max_rgs)
    ∧ (∀ a : RegionArena, a.max_rgs ≤ a.count / a.rg_capacity →
        r_arena_alloc a = none) := by
  constructor
  · intro es rc mr ops a' h
    refine r_arena_run_rgs_bound ops (r_arena_create es rc mr) a' ?_ h
    simp only [r_arena_create]
    split_ifs <;> omega
  · intro a hover
    simp [r_arena_alloc, ensure_region, hover]

/-- Witness for C8: the bound after a concrete one-allocation run, and a
concrete aborting allocation whose computed region (5 / 1) is past
`max_rgs = 1`. -/
theorem regions_in_use_bounded_witness :
    ({ elem_size := 1, rg_capacity := 1, rgs_in_use := 1, count := 1, max_rgs := 1, current_epoch := 0, regions_handler := (fun r => if r = 0 then some ⟨fun _ => List.replicate 1 0, 0⟩ else none) : RegionArena }).rgs_in_use ≤
      ({ elem_size := 1, rg_capacity := 1, rgs_in_use := 1, count := 1, max_rgs := 1, current_epoch := 0, regions_handler := (fun r => if r = 0 then some ⟨fun _ => List.replicate 1 0, 0⟩ else none) : RegionArena }).max_rgs ∧
    r_arena_alloc { elem_size := 1, rg_capacity := 1, rgs_in_use := 1, count := 5, max_rgs := 1, current_epoch := 0, regions_handler := (fun r => if r = 0 then some ⟨fun _ => List.replicate 1 0, 0⟩ else none) : RegionArena } = none := by
  constructor
  · exact regions_in_use_bounded.1 1 1 1 [.alloc] _ rfl
  · exact regions_in_use_bounded.2 _ (by decide)

end Seakcutils
